import Mathlib

/-!
Shallow embedding of the image transformation decision pipeline of the
multipart-upload-proxy repository (Go).

Source files embedded:
- src/imageprocessing.go (the second, current version of the file: the one
  declaring ImageProcessingResult with the WasResized field and the
  orientation-aware calculateBoundingBoxResize) - dimension calculators,
  EXIF orientation handling, transparency detection, and the decision
  engine processImageWithStrategy.
- src/proxy.go - reformatMultipart (outbound multipart reconstruction and
  the filename/MIME reconciliation decision table), changeExtensionToJPG,
  changeExtensionToWebP, and the MIME type constants.

Modelling conventions:
- Go int is modelled as Lean Int (no overflow is relevant at the sizes the
  pipeline handles; no arithmetic in the embedded code wraps).
- Go float64 scale arithmetic (scale := float64(a) / float64(b);
  int(float64(w) * scale)) is modelled as exact rational arithmetic with
  truncation toward zero (ratTrunc), which is the real-number semantics the
  code approximates; all concrete dimension values appearing in the claims
  produce the same results under float64 and under exact rationals.
- Byte buffers are modelled as List Nat; only their identity and length
  are ever inspected by the embedded code.
- The external image codec (the bimg library) is out of scope per the
  specification and is modelled as an abstract record of operations
  (BimgCodec); a Go call returning (value, error) is modelled as
  Option value (none = non-nil error).
- A Go error value stored in a result field is modelled as a Bool flag
  (true = non-nil error), since the embedded logic only ever tests
  errors against nil.
-/

/-- ImageSize from src/imageprocessing.go. -/
structure ImageSize where
  Width : Int
  Height : Int
deriving Repr, DecidableEq

/-- ImageProcessingSettings from src/imageprocessing.go. -/
structure ImageProcessingSettings where
  MaxWidth : Int
  MaxHeight : Int
  MaxNarrowSide : Int
  JpegQuality : Int
  WebpQuality : Int
  ConvertToFormat : String
deriving Repr, DecidableEq

/-- Go conversion int(x) applied to the exact rational value of a float
expression: truncation toward zero. -/
def ratTrunc (q : ℚ) : Int := if 0 ≤ q then ⌊q⌋ else ⌈q⌉

/-- calculateNarrowSideResize from src/imageprocessing.go (lines 455-470):
narrow side constraint strategy.  The float64 scale arithmetic is modelled
as exact rational arithmetic with truncation toward zero. -/
def calculateNarrowSideResize (original : ImageSize) (maxNarrowSide : Int) : ImageSize :=
  let narrowSide := if original.Height < original.Width then original.Height else original.Width
  if narrowSide ≤ maxNarrowSide then
    original
  else
    let scale : ℚ := (maxNarrowSide : ℚ) / (narrowSide : ℚ)
    { Width := ratTrunc ((original.Width : ℚ) * scale),
      Height := ratTrunc ((original.Height : ℚ) * scale) }

/-- The effective bounding box computed at the top of
calculateBoundingBoxResize (src/imageprocessing.go lines 475-488): the
configured limits, swapped exactly when the orientation of the image
(width greater than or equal to height means landscape) differs from the
orientation of the configured box. -/
def effectiveBox (original : ImageSize) (maxWidth maxHeight : Int) : Int × Int :=
  let isLandscape : Bool := original.Height ≤ original.Width
  let configIsLandscape : Bool := maxHeight ≤ maxWidth
  if isLandscape = configIsLandscape then
    (maxWidth, maxHeight)
  else
    (maxHeight, maxWidth)

/-- calculateBoundingBoxResize from src/imageprocessing.go (lines 474-507):
orientation-aware bounding box strategy.  The float64 scale arithmetic is
modelled as exact rational arithmetic with truncation toward zero. -/
def calculateBoundingBoxResize (original : ImageSize) (maxWidth maxHeight : Int) : ImageSize :=
  let eff := effectiveBox original maxWidth maxHeight
  if original.Width ≤ eff.1 ∧ original.Height ≤ eff.2 then
    original
  else
    let scaleWidth : ℚ := (eff.1 : ℚ) / (original.Width : ℚ)
    let scaleHeight : ℚ := (eff.2 : ℚ) / (original.Height : ℚ)
    let scale := if scaleHeight < scaleWidth then scaleHeight else scaleWidth
    { Width := ratTrunc ((original.Width : ℚ) * scale),
      Height := ratTrunc ((original.Height : ℚ) * scale) }

/-- calculateResizeDimensions from src/imageprocessing.go (lines 445-452). -/
def calculateResizeDimensions (original : ImageSize) (settings : ImageProcessingSettings) : ImageSize :=
  if settings.MaxNarrowSide > 0 then
    calculateNarrowSideResize original settings.MaxNarrowSide
  else
    calculateBoundingBoxResize original settings.MaxWidth settings.MaxHeight

/-- EXIF_ORIENTATION_NORMAL from src/proxy.go. -/
def EXIF_ORIENTATION_NORMAL : Int := 1

/-- DEFAULT_MIME_TYPE from src/proxy.go. -/
def DEFAULT_MIME_TYPE : String := "application/octet-stream"

/-- JPEG_MIME_TYPE from src/proxy.go. -/
def JPEG_MIME_TYPE : String := "image/jpeg"

/-- WEBP_MIME_TYPE from src/proxy.go. -/
def WEBP_MIME_TYPE : String := "image/webp"

/-- The subset of bimg image metadata the embedded code reads
(metadata.Alpha and metadata.Orientation). -/
structure BimgMetadata where
  Alpha : Bool
  Orientation : Int
deriving Repr, DecidableEq

/-- The bimg target image type of an encode request.  The preserve
constructor models the zero value of the bimg Options Type field, which
keeps the original format (used by the resize-only path, which sets only
Width and Height). -/
inductive BimgImageType where
  | preserve
  | JPEG
  | WEBP
deriving Repr, DecidableEq

/-- The subset of bimg Options the embedded code sets.  The Go field named
Type is called Typ here because Type is a Lean keyword. -/
structure BimgOptions where
  Width : Int
  Height : Int
  Quality : Int
  Typ : BimgImageType
deriving Repr, DecidableEq

/-- Abstract model of the external bimg image codec (out of scope per the
specification, modelled at its boundary).  A bimg.Image value is identified
with its backing bytes, so the Metadata, Size, AutoRotate and Process
methods become functions of the bytes; a Go (value, error) return is
modelled as Option value, none meaning a non-nil error. -/
structure BimgCodec where
  metadata : List Nat → Option BimgMetadata
  autoRotate : List Nat → Option (List Nat)
  size : List Nat → Option ImageSize
  process : List Nat → BimgOptions → Option (List Nat)

/-- ImageProcessingResult from src/imageprocessing.go (second version, the
one with the WasResized field).  The Go field ProcessingError (an error
value only ever compared against nil) is modelled as the Bool flag
HasProcessingError, true meaning a non-nil error. -/
structure ImageProcessingResult where
  ProcessedData : List Nat
  WasCompressed : Bool
  WasResized : Bool
  NewDimensions : ImageSize
  HasProcessingError : Bool
deriving Repr, DecidableEq

/-- detectImageTransparency from src/imageprocessing.go (lines 273-280):
reads the Alpha flag of the image metadata; none models the error return. -/
def detectImageTransparency (c : BimgCodec) (imageData : List Nat) : Option Bool :=
  match c.metadata imageData with
  | none => none
  | some md => some md.Alpha

/-- handleEXIFOrientation from src/imageprocessing.go (lines 425-443).
The Go function returns (image, bytes, error) where the image handle always
corresponds to the returned bytes; it is modelled as (bytes, error flag).
Every return site of the Go function passes a nil error (a failed rotation
falls back to the original bytes), so the flag is false in every branch. -/
def handleEXIFOrientation (c : BimgCodec) (originalData : List Nat) : List Nat × Bool :=
  match c.metadata originalData with
  | some md =>
    if EXIF_ORIENTATION_NORMAL < md.Orientation then
      match c.autoRotate originalData with
      | some rotatedBytes => (rotatedBytes, false)
      | none => (originalData, false)
    else
      (originalData, false)
  | none => (originalData, false)

/-- The Options value built by the conversion branch of
processImageWithStrategy (src/imageprocessing.go lines 367-389): target
dimensions plus the format-specific quality and target type selected by
the switch on the convert format (default arm falls back to JPEG). -/
def conversionOptions (settings : ImageProcessingSettings) (newDimensions : ImageSize) : BimgOptions :=
  { Width := newDimensions.Width,
    Height := newDimensions.Height,
    Quality :=
      if settings.ConvertToFormat = "JPEG" then settings.JpegQuality
      else if settings.ConvertToFormat = "WEBP" then settings.WebpQuality
      else settings.JpegQuality,
    Typ :=
      if settings.ConvertToFormat = "JPEG" then BimgImageType.JPEG
      else if settings.ConvertToFormat = "WEBP" then BimgImageType.WEBP
      else BimgImageType.JPEG }

/-- The resize-only branch of processImageWithStrategy
(src/imageprocessing.go lines 328-365), entered when the convert format is
empty: no transformation at all when the calculated dimensions already
equal the decoded size, otherwise a format-preserving resize (the bimg
Options carry only Width and Height; Quality stays 0 and Typ stays the
zero value preserve). -/
def processResizeOnly (c : BimgCodec) (rotatedData : List Nat)
    (oldImageSize newDimensions : ImageSize) : ImageProcessingResult :=
  if newDimensions.Width = oldImageSize.Width ∧ newDimensions.Height = oldImageSize.Height then
    { ProcessedData := rotatedData, WasCompressed := false, WasResized := false,
      NewDimensions := oldImageSize, HasProcessingError := false }
  else
    match c.process rotatedData
        { Width := newDimensions.Width, Height := newDimensions.Height,
          Quality := 0, Typ := BimgImageType.preserve } with
    | none =>
      { ProcessedData := rotatedData, WasCompressed := false, WasResized := false,
        NewDimensions := oldImageSize, HasProcessingError := true }
    | some processedData =>
      { ProcessedData := processedData, WasCompressed := false, WasResized := true,
        NewDimensions := newDimensions, HasProcessingError := false }

/-- The conversion branch of processImageWithStrategy
(src/imageprocessing.go lines 367-423): encode with the conversion options,
then adopt the encoded bytes only when they are strictly smaller than the
working bytes (wasCompressed := len(processedData) < len(rotatedData)),
keeping the working bytes otherwise; wasResized records independently
whether the calculated dimensions differ from the decoded size. -/
def processConversion (c : BimgCodec) (rotatedData : List Nat)
    (settings : ImageProcessingSettings)
    (oldImageSize newDimensions : ImageSize) : ImageProcessingResult :=
  match c.process rotatedData (conversionOptions settings newDimensions) with
  | none =>
    { ProcessedData := rotatedData, WasCompressed := false, WasResized := false,
      NewDimensions := oldImageSize, HasProcessingError := true }
  | some processedData =>
    { ProcessedData :=
        if processedData.length < rotatedData.length then processedData else rotatedData,
      WasCompressed := decide (processedData.length < rotatedData.length),
      WasResized :=
        decide (newDimensions.Width ≠ oldImageSize.Width ∨ newDimensions.Height ≠ oldImageSize.Height),
      NewDimensions := newDimensions, HasProcessingError := false }

/-- processImageWithStrategy from src/imageprocessing.go (lines 282-423,
second version of the file): early transparency short-circuit when a
conversion is requested, EXIF orientation correction, size decode of the
working bytes, dimension calculation, then the resize-only or conversion
branch (split out above as processResizeOnly and processConversion). -/
def processImageWithStrategy (c : BimgCodec) (originalData : List Nat)
    (settings : ImageProcessingSettings) : ImageProcessingResult :=
  if settings.ConvertToFormat ≠ "" ∧ detectImageTransparency c originalData = some true then
    { ProcessedData := originalData, WasCompressed := false, WasResized := false,
      NewDimensions := ⟨0, 0⟩, HasProcessingError := false }
  else if (handleEXIFOrientation c originalData).2 then
    { ProcessedData := originalData, WasCompressed := false, WasResized := false,
      NewDimensions := ⟨0, 0⟩, HasProcessingError := true }
  else
    match c.size (handleEXIFOrientation c originalData).1 with
    | none =>
      { ProcessedData := (handleEXIFOrientation c originalData).1,
        WasCompressed := false, WasResized := false,
        NewDimensions := ⟨0, 0⟩, HasProcessingError := true }
    | some oldImageSize =>
      if settings.ConvertToFormat = "" then
        processResizeOnly c (handleEXIFOrientation c originalData).1
          oldImageSize (calculateResizeDimensions oldImageSize settings)
      else
        processConversion c (handleEXIFOrientation c originalData).1
          settings oldImageSize (calculateResizeDimensions oldImageSize settings)

/-- Length of the extension (including the dot) found by scanning the
reversed character list of a path, stopping at a path separator before
examining each character, exactly as the loop of Go filepath.Ext does on
Linux (where the only path separator is the slash); none when no dot is
found in the final path element. -/
def extLenRev : List Char → Option Nat
  | [] => none
  | c :: rest =>
    if c = '/' then none
    else if c = '.' then some 1
    else (extLenRev rest).map (· + 1)

/-- Go filepath.Ext: the suffix beginning at the final dot in the final
element of the path, empty when there is no such dot. -/
def filepathExt (path : String) : String :=
  match extLenRev path.data.reverse with
  | none => ""
  | some n => String.mk (path.data.drop (path.data.length - n))

/-- Go strings.TrimSuffix: s without the provided suffix when the suffix
is present, s unchanged otherwise. -/
def trimSuffix (s suffix : String) : String :=
  if suffix.data.isSuffixOf s.data then
    String.mk (s.data.take (s.data.length - suffix.data.length))
  else
    s

/-- changeExtensionToJPG from src/proxy.go (lines 379-390): append .JPG
when filepath.Ext finds no extension, otherwise trim the extension and
append .JPG. -/
def changeExtensionToJPG (filename : String) : String :=
  let extension := filepathExt filename
  if extension = "" then
    filename ++ ".JPG"
  else
    trimSuffix filename extension ++ ".JPG"

/-- changeExtensionToWebP from src/proxy.go (lines 394-405): same as
changeExtensionToJPG with the .WEBP extension. -/
def changeExtensionToWebP (filename : String) : String :=
  let extension := filepathExt filename
  if extension = "" then
    filename ++ ".WEBP"
  else
    trimSuffix filename extension ++ ".WEBP"

/-- The multipart.FileHeader data reformatMultipart reads: the uploaded
filename and the declared Content-Type of the original file part (the
empty string modelling an absent declaration, which is what the Go
Header.Get call yields then). -/
structure FileHeader where
  Filename : String
  ContentType : String
deriving Repr, DecidableEq

/-- The one outbound file part written by reformatMultipart: field name,
reconciled filename and MIME type, and the transmitted bytes. -/
structure FilePart where
  FieldName : String
  FileName : String
  MimeType : String
  Content : List Nat
deriving Repr, DecidableEq

/-- The outbound multipart body written by reformatMultipart: the copied
non-file form fields followed by exactly one file part (the multipart
wire encoding itself - boundaries and headers - is out of scope). -/
structure OutboundBody where
  Fields : List (String × String)
  Part : FilePart
deriving Repr, DecidableEq

/-- Go url.Values Get: the first value stored under a key, the empty
string when the list of values is empty. -/
def formGet (values : List String) : String := values.headD ""

/-- reformatMultipart from src/proxy.go (lines 255-369), modelled from the
point where the upload has been accepted (ParseMultipartForm and FormFile
succeeded; their failure paths reject the request before any of the logic
embedded here runs).  The inbound parsed form is a finite map from field
names to value lists (Go url.Values), modelled as an association list with
distinct keys; the loop over it copies each key with its first value
(r.Form.Get).  The globals the Go code reads (convert format, normalize
extensions flag, file upload field name) are passed explicitly; the
convert format handed to the decision engine and the one used by the
reconciliation switch are the same value, as in the Go program.  The two
trailing Go branches (processed-but-not-compressed, and not-processed)
assign identical filename/MIME values and differ only in logging, so they
are merged here. -/
def reformatMultipart (c : BimgCodec) (form : List (String × List String))
    (handler : FileHeader) (fileBytes : List Nat)
    (settings : ImageProcessingSettings) (normalizeExtensions : Int)
    (fileUploadField : String) : OutboundBody :=
  let result := processImageWithStrategy c fileBytes settings
  let wasImageProcessed := !result.HasProcessingError
  let actuallyCompressed := wasImageProcessed && result.WasCompressed
  let byteContainer := if wasImageProcessed then result.ProcessedData else fileBytes
  let fields := form.map fun kv => (kv.1, formGet kv.2)
  let convertFormat := settings.ConvertToFormat
  let pair : String × String :=
    if wasImageProcessed && actuallyCompressed then
      if convertFormat = "JPEG" then
        (if normalizeExtensions = 1 then changeExtensionToJPG handler.Filename
         else handler.Filename,
         JPEG_MIME_TYPE)
      else if convertFormat = "WEBP" then
        (if normalizeExtensions = 1 then changeExtensionToWebP handler.Filename
         else handler.Filename,
         WEBP_MIME_TYPE)
      else
        (handler.Filename, JPEG_MIME_TYPE)
    else
      (handler.Filename,
       if handler.ContentType = "" then DEFAULT_MIME_TYPE else handler.ContentType)
  { Fields := fields,
    Part := { FieldName := fileUploadField, FileName := pair.1,
              MimeType := pair.2, Content := byteContainer } }

/-- The no-resize-needed regions of the two strategies of the dimension
calculator: the narrow side already within the narrow side limit when that
strategy is selected, both dimensions already within the
orientation-matched effective box otherwise. -/
def withinApplicableLimits (original : ImageSize) (settings : ImageProcessingSettings) : Prop :=
  if settings.MaxNarrowSide > 0 then
    min original.Width original.Height ≤ settings.MaxNarrowSide
  else
    original.Width ≤ (effectiveBox original settings.MaxWidth settings.MaxHeight).1 ∧
    original.Height ≤ (effectiveBox original settings.MaxWidth settings.MaxHeight).2

lemma ite_lt_eq_min {α : Type _} [LinearOrder α] (a b : α) :
    (if b < a then b else a) = min a b := by
  rcases le_or_lt a b with h | h
  · rw [if_neg (not_lt.mpr h), min_eq_left h]
  · rw [if_pos h, min_eq_right h.le]

lemma ratTrunc_le_of_le {q : ℚ} {n : ℤ} (hn : 0 ≤ n) (h : q ≤ (n : ℚ)) :
    ratTrunc q ≤ n := by
  unfold ratTrunc
  by_cases h0 : 0 ≤ q
  · rw [if_pos h0]
    calc ⌊q⌋ ≤ ⌊(n : ℚ)⌋ := Int.floor_mono h
    _ = n := Int.floor_intCast n
  · rw [if_neg h0]
    have hq : q ≤ (0 : ℚ) := le_of_lt (lt_of_not_le h0)
    calc ⌈q⌉ ≤ ⌈(0 : ℚ)⌉ := Int.ceil_mono hq
    _ = 0 := Int.ceil_zero
    _ ≤ n := hn

lemma effectiveBox_eq (original : ImageSize) (maxWidth maxHeight : Int) :
    effectiveBox original maxWidth maxHeight =
      if (original.Height ≤ original.Width ↔ maxHeight ≤ maxWidth) then
        (maxWidth, maxHeight)
      else
        (maxHeight, maxWidth) := by
  unfold effectiveBox
  by_cases h : (original.Height ≤ original.Width ↔ maxHeight ≤ maxWidth)
  · rw [if_pos h, if_pos (decide_eq_decide.mpr h)]
  · rw [if_neg h, if_neg fun hb => h (decide_eq_decide.mp hb)]

/-- Claim C3: with a positive narrow side limit, calculateResizeDimensions
returns the original unchanged when the narrow side (the minimum of width
and height) is already within the limit, and otherwise multiplies both
dimensions by the ratio of the limit to the narrow side, truncated to
integers; in particular 1600 by 800 with limit 400 yields 800 by 400. -/
theorem claim_C3 (original : ImageSize) (settings : ImageProcessingSettings)
    (hW : 0 < original.Width) (hH : 0 < original.Height)
    (hN : 0 < settings.MaxNarrowSide) :
    (min original.Width original.Height ≤ settings.MaxNarrowSide →
      calculateResizeDimensions original settings = original) ∧
    (settings.MaxNarrowSide < min original.Width original.Height →
      calculateResizeDimensions original settings =
        { Width := ratTrunc ((original.Width : ℚ) *
            ((settings.MaxNarrowSide : ℚ) / ((min original.Width original.Height : Int) : ℚ))),
          Height := ratTrunc ((original.Height : ℚ) *
            ((settings.MaxNarrowSide : ℚ) / ((min original.Width original.Height : Int) : ℚ))) }) ∧
    calculateResizeDimensions ⟨1600, 800⟩ ⟨1920, 1080, 400, 90, 85, ""⟩ = ⟨800, 400⟩ := by
  refine ⟨?_, ?_, ?_⟩
  · intro hle
    unfold calculateResizeDimensions calculateNarrowSideResize
    rw [if_pos hN]
    simp only [ite_lt_eq_min]
    rw [if_pos hle]
  · intro hgt
    unfold calculateResizeDimensions calculateNarrowSideResize
    rw [if_pos hN]
    simp only [ite_lt_eq_min]
    rw [if_neg (not_le.mpr hgt)]
  · unfold calculateResizeDimensions calculateNarrowSideResize ratTrunc
    norm_num

/-- Witness for claim C3 at the concrete scenario of the claim. -/
theorem claim_C3_witness :
    calculateResizeDimensions ⟨1600, 800⟩ ⟨1920, 1080, 400, 90, 85, ""⟩ = ⟨800, 400⟩ :=
  (claim_C3 ⟨1600, 800⟩ ⟨1920, 1080, 400, 90, 85, ""⟩
    (by norm_num) (by norm_num) (by norm_num)).2.2

/-- Claim C2: with the narrow side limit disabled (zero), the bounding box
strategy matches the box orientation to the image orientation (width
greater than or equal to height counts as landscape; the configured limits
are swapped exactly when the two orientations differ), returns the
original unchanged when it already fits the effective box, and otherwise
scales both dimensions by the smaller of the two effective ratios,
truncated to integers; in particular 2000 by 3000 under a 1920 by 1080 box
yields 1080 by 1620, and 3000 by 2000 yields 1620 by 1080. -/
theorem claim_C2 (original : ImageSize) (settings : ImageProcessingSettings)
    (hW : 0 < original.Width) (hH : 0 < original.Height)
    (hN : settings.MaxNarrowSide = 0) :
    (∀ effW effH : Int,
      effW = (if (original.Height ≤ original.Width ↔ settings.MaxHeight ≤ settings.MaxWidth)
              then settings.MaxWidth else settings.MaxHeight) →
      effH = (if (original.Height ≤ original.Width ↔ settings.MaxHeight ≤ settings.MaxWidth)
              then settings.MaxHeight else settings.MaxWidth) →
      (original.Width ≤ effW ∧ original.Height ≤ effH →
        calculateResizeDimensions original settings = original) ∧
      (¬(original.Width ≤ effW ∧ original.Height ≤ effH) →
        calculateResizeDimensions original settings =
          { Width := ratTrunc ((original.Width : ℚ) *
              min ((effW : ℚ) / (original.Width : ℚ)) ((effH : ℚ) / (original.Height : ℚ))),
            Height := ratTrunc ((original.Height : ℚ) *
              min ((effW : ℚ) / (original.Width : ℚ)) ((effH : ℚ) / (original.Height : ℚ))) })) ∧
    calculateResizeDimensions ⟨2000, 3000⟩ ⟨1920, 1080, 0, 90, 85, ""⟩ = ⟨1080, 1620⟩ ∧
    calculateResizeDimensions ⟨3000, 2000⟩ ⟨1920, 1080, 0, 90, 85, ""⟩ = ⟨1620, 1080⟩ := by
  refine ⟨?_, ?_, ?_⟩
  · intro effW effH heW heH
    have heff : effectiveBox original settings.MaxWidth settings.MaxHeight = (effW, effH) := by
      rw [effectiveBox_eq, heW, heH]
      by_cases h : (original.Height ≤ original.Width ↔ settings.MaxHeight ≤ settings.MaxWidth)
      · rw [if_pos h, if_pos h, if_pos h]
      · rw [if_neg h, if_neg h, if_neg h]
    constructor
    · intro hin
      unfold calculateResizeDimensions calculateBoundingBoxResize
      rw [if_neg (by omega), heff]
      exact if_pos hin
    · intro hout
      unfold calculateResizeDimensions calculateBoundingBoxResize
      rw [if_neg (by omega), heff]
      simp only
      rw [if_neg hout, ite_lt_eq_min]
  · unfold calculateResizeDimensions calculateBoundingBoxResize effectiveBox ratTrunc
    norm_num
  · unfold calculateResizeDimensions calculateBoundingBoxResize effectiveBox ratTrunc
    norm_num

/-- Witness for claim C2 at the portrait concrete scenario of the claim. -/
theorem claim_C2_witness :
    calculateResizeDimensions ⟨2000, 3000⟩ ⟨1920, 1080, 0, 90, 85, ""⟩ = ⟨1080, 1620⟩ :=
  (claim_C2 ⟨2000, 3000⟩ ⟨1920, 1080, 0, 90, 85, ""⟩
    (by norm_num) (by norm_num) rfl).2.1

/-- Claim C7: for positive original dimensions, both strategies of
calculateResizeDimensions are downscale-only (neither returned dimension
ever exceeds the corresponding original one), and an input already within
the applicable limits is returned exactly unchanged. -/
theorem claim_C7 (original : ImageSize) (settings : ImageProcessingSettings)
    (hW : 0 < original.Width) (hH : 0 < original.Height) :
    (calculateResizeDimensions original settings).Width ≤ original.Width ∧
    (calculateResizeDimensions original settings).Height ≤ original.Height ∧
    (withinApplicableLimits original settings →
      calculateResizeDimensions original settings = original) := by
  have hWq : (0 : ℚ) < (original.Width : ℚ) := by exact_mod_cast hW
  have hHq : (0 : ℚ) < (original.Height : ℚ) := by exact_mod_cast hH
  unfold calculateResizeDimensions withinApplicableLimits
  by_cases hN : settings.MaxNarrowSide > 0
  · rw [if_pos hN, if_pos hN]
    unfold calculateNarrowSideResize
    simp only [ite_lt_eq_min]
    by_cases hin : min original.Width original.Height ≤ settings.MaxNarrowSide
    · rw [if_pos hin]
      exact ⟨le_refl _, le_refl _, fun _ => rfl⟩
    · rw [if_neg hin]
      have hmin : (0 : Int) < min original.Width original.Height := lt_min hW hH
      have hminq : (0 : ℚ) < ((min original.Width original.Height : Int) : ℚ) := by
        exact_mod_cast hmin
      have hscale : (settings.MaxNarrowSide : ℚ) /
          ((min original.Width original.Height : Int) : ℚ) ≤ 1 := by
        rw [div_le_one hminq]
        exact_mod_cast le_of_lt (not_le.mp hin)
      refine ⟨?_, ?_, fun hc => absurd hc hin⟩
      · apply ratTrunc_le_of_le hW.le
        calc (original.Width : ℚ) * _ ≤ (original.Width : ℚ) * 1 :=
              mul_le_mul_of_nonneg_left hscale hWq.le
        _ = (original.Width : ℚ) := mul_one _
      · apply ratTrunc_le_of_le hH.le
        calc (original.Height : ℚ) * _ ≤ (original.Height : ℚ) * 1 :=
              mul_le_mul_of_nonneg_left hscale hHq.le
        _ = (original.Height : ℚ) := mul_one _
  · rw [if_neg hN, if_neg hN]
    unfold calculateBoundingBoxResize
    by_cases hin : original.Width ≤ (effectiveBox original settings.MaxWidth settings.MaxHeight).1 ∧
        original.Height ≤ (effectiveBox original settings.MaxWidth settings.MaxHeight).2
    · rw [if_pos hin]
      exact ⟨le_refl _, le_refl _, fun _ => rfl⟩
    · rw [if_neg hin]
      simp only [ite_lt_eq_min]
      have hscale : min
          (((effectiveBox original settings.MaxWidth settings.MaxHeight).1 : ℚ) / (original.Width : ℚ))
          (((effectiveBox original settings.MaxWidth settings.MaxHeight).2 : ℚ) / (original.Height : ℚ)) ≤ 1 := by
        rcases not_and_or.mp hin with hx | hx
        · apply le_trans (min_le_left _ _)
          rw [div_le_one hWq]
          exact_mod_cast le_of_lt (not_le.mp hx)
        · apply le_trans (min_le_right _ _)
          rw [div_le_one hHq]
          exact_mod_cast le_of_lt (not_le.mp hx)
      refine ⟨?_, ?_, fun hc => absurd hc hin⟩
      · apply ratTrunc_le_of_le hW.le
        calc (original.Width : ℚ) * _ ≤ (original.Width : ℚ) * 1 :=
              mul_le_mul_of_nonneg_left hscale hWq.le
        _ = (original.Width : ℚ) := mul_one _
      · apply ratTrunc_le_of_le hH.le
        calc (original.Height : ℚ) * _ ≤ (original.Height : ℚ) * 1 :=
              mul_le_mul_of_nonneg_left hscale hHq.le
        _ = (original.Height : ℚ) := mul_one _

lemma handleEXIFOrientation_snd (c : BimgCodec) (data : List Nat) :
    (handleEXIFOrientation c data).2 = false := by
  unfold handleEXIFOrientation
  cases hm : c.metadata data with
  | none => rfl
  | some md =>
    dsimp only
    split
    · cases hr : c.autoRotate data with
      | none => rfl
      | some r => rfl
    · rfl

lemma processImageWithStrategy_conversion (c : BimgCodec) (data : List Nat)
    (settings : ImageProcessingSettings) (oldImageSize : ImageSize)
    (hT : ¬(settings.ConvertToFormat ≠ "" ∧ detectImageTransparency c data = some true))
    (hCF : settings.ConvertToFormat ≠ "")
    (hS : c.size (handleEXIFOrientation c data).1 = some oldImageSize) :
    processImageWithStrategy c data settings =
      processConversion c (handleEXIFOrientation c data).1 settings oldImageSize
        (calculateResizeDimensions oldImageSize settings) := by
  unfold processImageWithStrategy
  rw [if_neg hT]
  simp only [handleEXIFOrientation_snd, Bool.false_eq_true, if_false, hS]
  rw [if_neg hCF]

/-- Claim C5: when a conversion format is configured and transparency
detection succeeds reporting an alpha channel, processImageWithStrategy
short-circuits, returning the original bytes with both flags false and
without invoking rotation, size decode, resize or encode. -/
theorem claim_C5 (c : BimgCodec) (data : List Nat) (settings : ImageProcessingSettings)
    (hCF : settings.ConvertToFormat ≠ "")
    (hT : detectImageTransparency c data = some true) :
    processImageWithStrategy c data settings =
      { ProcessedData := data, WasCompressed := false, WasResized := false,
        NewDimensions := ⟨0, 0⟩, HasProcessingError := false } := by
  unfold processImageWithStrategy
  rw [if_pos ⟨hCF, hT⟩]

/-- A codec behaviour for concrete scenarios: the bytes 7 form a
transparent image of size 100 by 100; everything else fails. -/
def codecAlpha : BimgCodec :=
  { metadata := fun d => if d = [7] then some ⟨true, 1⟩ else none,
    autoRotate := fun _ => none,
    size := fun d => if d = [7] then some ⟨100, 100⟩ else none,
    process := fun _ _ => none }

/-- Witness for claim C5: a concrete transparent input under a WEBP
conversion request comes back untouched. -/
theorem claim_C5_witness :
    processImageWithStrategy codecAlpha [7] ⟨1920, 1080, 0, 90, 85, "WEBP"⟩ =
      { ProcessedData := [7], WasCompressed := false, WasResized := false,
        NewDimensions := ⟨0, 0⟩, HasProcessingError := false } :=
  claim_C5 codecAlpha [7] ⟨1920, 1080, 0, 90, 85, "WEBP"⟩ (by decide) (by decide)

/-- Claim C4: on the conversion path (a JPEG or WEBP target, no
transparency short-circuit, size decode and encode both succeeding), the
encoded bytes are adopted with WasCompressed true exactly when they are
strictly shorter than the working bytes; otherwise the working bytes are
kept with WasCompressed false, so a conversion result at least as large as
the pre-conversion buffer is never adopted. -/
theorem claim_C4 (c : BimgCodec) (data : List Nat) (settings : ImageProcessingSettings)
    (oldImageSize : ImageSize) (encoded : List Nat)
    (hCF : settings.ConvertToFormat = "JPEG" ∨ settings.ConvertToFormat = "WEBP")
    (hT : ¬ detectImageTransparency c data = some true)
    (hS : c.size (handleEXIFOrientation c data).1 = some oldImageSize)
    (hP : c.process (handleEXIFOrientation c data).1
        (conversionOptions settings (calculateResizeDimensions oldImageSize settings))
      = some encoded) :
    (encoded.length < (handleEXIFOrientation c data).1.length →
      (processImageWithStrategy c data settings).ProcessedData = encoded ∧
      (processImageWithStrategy c data settings).WasCompressed = true) ∧
    ((handleEXIFOrientation c data).1.length ≤ encoded.length →
      (processImageWithStrategy c data settings).ProcessedData = (handleEXIFOrientation c data).1 ∧
      (processImageWithStrategy c data settings).WasCompressed = false) := by
  have hCFne : settings.ConvertToFormat ≠ "" := by
    rcases hCF with h | h <;> rw [h] <;> decide
  rw [processImageWithStrategy_conversion c data settings oldImageSize
    (fun hc => hT hc.2) hCFne hS]
  unfold processConversion
  simp only [hP]
  constructor
  · intro hlt
    rw [if_pos hlt]
    exact ⟨rfl, decide_eq_true hlt⟩
  · intro hge
    rw [if_neg (not_lt.mpr hge)]
    exact ⟨rfl, decide_eq_false (not_lt.mpr hge)⟩

/-- A codec behaviour for concrete conversion scenarios: the bytes 5 5
form an opaque 10 by 10 image with normal orientation; any encode of them
yields the single byte 9 (strictly smaller). -/
def codecShrink : BimgCodec :=
  { metadata := fun d => if d = [5, 5] then some ⟨false, 1⟩ else none,
    autoRotate := fun _ => none,
    size := fun d => if d = [5, 5] then some ⟨10, 10⟩ else none,
    process := fun d _ => if d = [5, 5] then some [9] else none }

/-- Witness for claim C4: a concrete JPEG conversion whose output is
strictly smaller is adopted with WasCompressed true. -/
theorem claim_C4_witness :
    (processImageWithStrategy codecShrink [5, 5] ⟨1920, 1080, 0, 90, 85, "JPEG"⟩).ProcessedData = [9] ∧
    (processImageWithStrategy codecShrink [5, 5] ⟨1920, 1080, 0, 90, 85, "JPEG"⟩).WasCompressed = true := by
  have h := claim_C4 codecShrink [5, 5] ⟨1920, 1080, 0, 90, 85, "JPEG"⟩ ⟨10, 10⟩ [9]
    (Or.inl rfl) (by decide) (by decide) (by decide)
  exact h.1 (by decide)

/-- A codec behaviour refuting claim C6 as stated: the bytes 0 carry a
non-normal EXIF orientation, rotation succeeds and yields the different
bytes 1 2, and then the size decode of the rotated bytes fails. -/
def codecRotateThenFail : BimgCodec :=
  { metadata := fun d => if d = [0] then some ⟨false, 6⟩ else none,
    autoRotate := fun d => if d = [0] then some [1, 2] else none,
    size := fun _ => none,
    process := fun _ _ => none }

/-- Counterexample to claim C6 as stated: a result with a non-nil
processing error whose ProcessedData is the rotated working buffer, not
the original input bytes. -/
theorem claim_C6_counterexample :
    (processImageWithStrategy codecRotateThenFail [0] ⟨1920, 1080, 0, 90, 85, ""⟩).HasProcessingError = true ∧
    (processImageWithStrategy codecRotateThenFail [0] ⟨1920, 1080, 0, 90, 85, ""⟩).ProcessedData = [1, 2] ∧
    (processImageWithStrategy codecRotateThenFail [0] ⟨1920, 1080, 0, 90, 85, ""⟩).ProcessedData ≠ [0] := by
  decide

/-- Claim C6 amended: whenever the returned result carries a non-nil
processing error, ProcessedData equals the orientation-corrected working
bytes - which are the original input bytes exactly when no EXIF rotation
was applied - never an empty or partially transformed buffer. -/
theorem claim_C6_amended (c : BimgCodec) (data : List Nat) (settings : ImageProcessingSettings)
    (herr : (processImageWithStrategy c data settings).HasProcessingError = true) :
    (processImageWithStrategy c data settings).ProcessedData = (handleEXIFOrientation c data).1 := by
  unfold processImageWithStrategy at herr ⊢
  by_cases h1 : settings.ConvertToFormat ≠ "" ∧ detectImageTransparency c data = some true
  · rw [if_pos h1] at herr
    simp at herr
  · rw [if_neg h1] at herr ⊢
    simp only [handleEXIFOrientation_snd, Bool.false_eq_true, if_false] at herr ⊢
    cases hs : c.size (handleEXIFOrientation c data).1 with
    | none => simp only [hs]
    | some oldImageSize =>
      simp only [hs] at herr ⊢
      by_cases hcf : settings.ConvertToFormat = ""
      · rw [if_pos hcf] at herr ⊢
        unfold processResizeOnly at herr ⊢
        by_cases hdim : (calculateResizeDimensions oldImageSize settings).Width = oldImageSize.Width ∧
            (calculateResizeDimensions oldImageSize settings).Height = oldImageSize.Height
        · rw [if_pos hdim] at herr
          simp at herr
        · rw [if_neg hdim] at herr ⊢
          cases hp : c.process (handleEXIFOrientation c data).1
              { Width := (calculateResizeDimensions oldImageSize settings).Width,
                Height := (calculateResizeDimensions oldImageSize settings).Height,
                Quality := 0, Typ := BimgImageType.preserve } with
          | none => simp only [hp]
          | some pd =>
            simp only [hp] at herr
            simp at herr
      · rw [if_neg hcf] at herr ⊢
        unfold processConversion at herr ⊢
        cases hp : c.process (handleEXIFOrientation c data).1
            (conversionOptions settings (calculateResizeDimensions oldImageSize settings)) with
        | none => simp only [hp]
        | some pd =>
          simp only [hp] at herr
          simp at herr

/-- A codec behaviour on which every decode fails outright. -/
def codecOpaqueFail : BimgCodec :=
  { metadata := fun _ => none,
    autoRotate := fun _ => none,
    size := fun _ => none,
    process := fun _ _ => none }

/-- Witness for the amended claim C6: a failing decode yields an error
result whose bytes are the working bytes. -/
theorem claim_C6_witness :
    (processImageWithStrategy codecOpaqueFail [3] ⟨1920, 1080, 0, 90, 85, ""⟩).HasProcessingError = true ∧
    (processImageWithStrategy codecOpaqueFail [3] ⟨1920, 1080, 0, 90, 85, ""⟩).ProcessedData =
      (handleEXIFOrientation codecOpaqueFail [3]).1 :=
  ⟨by decide, claim_C6_amended codecOpaqueFail [3] ⟨1920, 1080, 0, 90, 85, ""⟩ (by decide)⟩

/-- The codec contract the specification assigns to the external image
codec: a successful transform-encode call returns bytes whose decoded
pixel dimensions are exactly the requested target dimensions. -/
def CodecSizeContract (c : BimgCodec) : Prop :=
  ∀ data opts out, c.process data opts = some out → c.size out = some ⟨opts.Width, opts.Height⟩

/-- Counterexample to claim C8 as stated: in the transparency
short-circuit the result carries the zero value NewDimensions 0 by 0 even
though the bytes in ProcessedData decode to 100 by 100. -/
theorem claim_C8_counterexample :
    (processImageWithStrategy codecAlpha [7] ⟨1920, 1080, 0, 90, 85, "JPEG"⟩).NewDimensions = ⟨0, 0⟩ ∧
    codecAlpha.size (processImageWithStrategy codecAlpha [7] ⟨1920, 1080, 0, 90, 85, "JPEG"⟩).ProcessedData
      = some ⟨100, 100⟩ ∧
    ((⟨0, 0⟩ : ImageSize) ≠ ⟨100, 100⟩) := by
  decide

/-- Claim C8 amended: under a codec honouring the dimension contract,
every error-free result has NewDimensions equal to the dimensions the
codec reports for ProcessedData, except for the transparency
short-circuit - where ProcessedData is the original bytes and
NewDimensions is the zero value - and the conversion-rejected path -
where ProcessedData keeps the working bytes (WasCompressed false) whose
dimensions are the pre-resize size, while NewDimensions is the computed
target. -/
theorem claim_C8_amended (c : BimgCodec) (hc : CodecSizeContract c)
    (data : List Nat) (settings : ImageProcessingSettings)
    (hok : (processImageWithStrategy c data settings).HasProcessingError = false) :
    c.size (processImageWithStrategy c data settings).ProcessedData
      = some (processImageWithStrategy c data settings).NewDimensions
    ∨ ((processImageWithStrategy c data settings).ProcessedData = data ∧
       (processImageWithStrategy c data settings).NewDimensions = ⟨0, 0⟩)
    ∨ ((processImageWithStrategy c data settings).WasCompressed = false ∧
       (processImageWithStrategy c data settings).ProcessedData = (handleEXIFOrientation c data).1) := by
  unfold processImageWithStrategy at hok ⊢
  by_cases h1 : settings.ConvertToFormat ≠ "" ∧ detectImageTransparency c data = some true
  · rw [if_pos h1] at hok ⊢
    exact Or.inr (Or.inl ⟨rfl, rfl⟩)
  · rw [if_neg h1] at hok ⊢
    simp only [handleEXIFOrientation_snd, Bool.false_eq_true, if_false] at hok ⊢
    cases hs : c.size (handleEXIFOrientation c data).1 with
    | none =>
      simp only [hs] at hok
      simp at hok
    | some oldImageSize =>
      simp only [hs] at hok ⊢
      by_cases hcf : settings.ConvertToFormat = ""
      · rw [if_pos hcf] at hok ⊢
        unfold processResizeOnly at hok ⊢
        by_cases hdim : (calculateResizeDimensions oldImageSize settings).Width = oldImageSize.Width ∧
            (calculateResizeDimensions oldImageSize settings).Height = oldImageSize.Height
        · rw [if_pos hdim]
          exact Or.inl hs
        · rw [if_neg hdim] at hok ⊢
          cases hp : c.process (handleEXIFOrientation c data).1
              { Width := (calculateResizeDimensions oldImageSize settings).Width,
                Height := (calculateResizeDimensions oldImageSize settings).Height,
                Quality := 0, Typ := BimgImageType.preserve } with
          | none =>
            simp only [hp] at hok
            simp at hok
          | some pd =>
            simp only [hp]
            exact Or.inl (hc _ _ _ hp)
      · rw [if_neg hcf] at hok ⊢
        unfold processConversion at hok ⊢
        cases hp : c.process (handleEXIFOrientation c data).1
            (conversionOptions settings (calculateResizeDimensions oldImageSize settings)) with
        | none =>
          simp only [hp] at hok
          simp at hok
        | some pd =>
          simp only [hp]
          by_cases hlt : pd.length < (handleEXIFOrientation c data).1.length
          · rw [if_pos hlt]
            exact Or.inl (hc _ _ _ hp)
          · rw [if_neg hlt]
            exact Or.inr (Or.inr ⟨decide_eq_false hlt, rfl⟩)

/-- A codec behaviour for the amended claim C8 witness: transparent
metadata, no successful transform, so the short-circuit disjunct is
realized and the contract holds vacuously. -/
def codecAlphaOnly : BimgCodec :=
  { metadata := fun _ => some ⟨true, 1⟩,
    autoRotate := fun _ => none,
    size := fun _ => none,
    process := fun _ _ => none }

/-- Witness for the amended claim C8 at a concrete transparent input. -/
theorem claim_C8_witness :
    codecAlphaOnly.size (processImageWithStrategy codecAlphaOnly [4] ⟨1920, 1080, 0, 90, 85, "WEBP"⟩).ProcessedData
      = some (processImageWithStrategy codecAlphaOnly [4] ⟨1920, 1080, 0, 90, 85, "WEBP"⟩).NewDimensions
    ∨ ((processImageWithStrategy codecAlphaOnly [4] ⟨1920, 1080, 0, 90, 85, "WEBP"⟩).ProcessedData = [4] ∧
       (processImageWithStrategy codecAlphaOnly [4] ⟨1920, 1080, 0, 90, 85, "WEBP"⟩).NewDimensions = ⟨0, 0⟩)
    ∨ ((processImageWithStrategy codecAlphaOnly [4] ⟨1920, 1080, 0, 90, 85, "WEBP"⟩).WasCompressed = false ∧
       (processImageWithStrategy codecAlphaOnly [4] ⟨1920, 1080, 0, 90, 85, "WEBP"⟩).ProcessedData =
         (handleEXIFOrientation codecAlphaOnly [4]).1) :=
  claim_C8_amended codecAlphaOnly (fun a b o h => Option.noConfusion h)
    [4] ⟨1920, 1080, 0, 90, 85, "WEBP"⟩ (by decide)

/-- Claim C1: for every accepted upload, when processing succeeded and the
result was compressed, the emitted MIME type is image/jpeg under a JPEG
conversion target and image/webp under a WEBP target; when the result was
not compressed or processing errored, the emitted filename is the original
upload filename and the emitted MIME type is the originally declared
Content-Type, or application/octet-stream when none was declared. -/
theorem claim_C1 (c : BimgCodec) (form : List (String × List String))
    (handler : FileHeader) (fileBytes : List Nat)
    (settings : ImageProcessingSettings) (normalizeExtensions : Int)
    (fileUploadField : String) :
    ((processImageWithStrategy c fileBytes settings).HasProcessingError = false →
     (processImageWithStrategy c fileBytes settings).WasCompressed = true →
      (settings.ConvertToFormat = "JPEG" →
        (reformatMultipart c form handler fileBytes settings normalizeExtensions
          fileUploadField).Part.MimeType = JPEG_MIME_TYPE) ∧
      (settings.ConvertToFormat = "WEBP" →
        (reformatMultipart c form handler fileBytes settings normalizeExtensions
          fileUploadField).Part.MimeType = WEBP_MIME_TYPE)) ∧
    ((processImageWithStrategy c fileBytes settings).WasCompressed = false ∨
     (processImageWithStrategy c fileBytes settings).HasProcessingError = true →
      (reformatMultipart c form handler fileBytes settings normalizeExtensions
        fileUploadField).Part.FileName = handler.Filename ∧
      (reformatMultipart c form handler fileBytes settings normalizeExtensions
        fileUploadField).Part.MimeType =
          (if handler.ContentType = "" then DEFAULT_MIME_TYPE else handler.ContentType)) := by
  unfold reformatMultipart
  generalize processImageWithStrategy c fileBytes settings = res
  obtain ⟨pd, wc, wr, nd, he⟩ := res
  cases he <;> cases wc
  · simp
  · simp only [Bool.not_true, Bool.not_false, Bool.and_self, Bool.true_and, if_true,
      Bool.true_eq_false, false_or, if_pos]
    refine ⟨fun _ _ => ⟨?_, ?_⟩, fun hfalse => by simp at hfalse⟩
    · intro hcf
      simp [hcf]
    · intro hcf
      simp [hcf]
  · simp
  · simp

/-- Witness for claim C1: a concrete successful JPEG conversion is emitted
with MIME type image/jpeg. -/
theorem claim_C1_witness :
    (reformatMultipart codecShrink [] ⟨"photo.png", "image/png"⟩ [5, 5]
      ⟨1920, 1080, 0, 90, 85, "JPEG"⟩ 1 "assetData").Part.MimeType = JPEG_MIME_TYPE := by
  have h := claim_C1 codecShrink [] ⟨"photo.png", "image/png"⟩ [5, 5]
    ⟨1920, 1080, 0, 90, 85, "JPEG"⟩ 1 "assetData"
  exact (h.1 (by decide) (by decide)).1 rfl

/-- Witness for claim C7: an image already inside the default box is
unchanged, and the bounds hold there. -/
theorem claim_C7_witness :
    calculateResizeDimensions ⟨100, 50⟩ ⟨1920, 1080, 0, 90, 85, ""⟩ = ⟨100, 50⟩ ∧
    (calculateResizeDimensions ⟨100, 50⟩ ⟨1920, 1080, 0, 90, 85, ""⟩).Width ≤ 100 := by
  have h := claim_C7 ⟨100, 50⟩ ⟨1920, 1080, 0, 90, 85, ""⟩ (by norm_num) (by norm_num)
  refine ⟨h.2.2 ?_, h.1⟩
  unfold withinApplicableLimits effectiveBox
  norm_num

/-- Follows the words of the specification and of claim C9, for comparison
with the source functions: the length (including the dot) of the suffix
beginning at the last dot anywhere in the filename, found by scanning the
reversed character list with no stop at path separators. -/
def specLastDotLenRev : List Char → Option Nat
  | [] => none
  | c :: rest =>
    if c = '.' then some 1
    else (specLastDotLenRev rest).map (· + 1)

/-- Follows the words of the specification and of claim C9, for comparison
with the source functions: replace everything after the last dot of the
filename with the canonical extension (which carries its own leading dot),
appending it when the filename contains no dot at all, so the empty
filename maps to just the extension. -/
def specLastDotChangeExtension (filename newExt : String) : String :=
  match specLastDotLenRev filename.data.reverse with
  | none => filename ++ newExt
  | some n => String.mk (filename.data.take (filename.data.length - n)) ++ newExt

lemma extLenRev_eq_spec (l : List Char) (h : '/' ∉ l) :
    extLenRev l = specLastDotLenRev l := by
  induction l with
  | nil => rfl
  | cons c rest ih =>
    have hc : c ≠ '/' := fun hcc => h (hcc ▸ List.mem_cons_self c rest)
    rw [extLenRev, specLastDotLenRev, if_neg hc,
      ih fun hm => h (List.mem_cons_of_mem _ hm)]

lemma extLenRev_bounds (l : List Char) (n : Nat) (h : extLenRev l = some n) :
    1 ≤ n ∧ n ≤ l.length := by
  induction l generalizing n with
  | nil => exact absurd h (by simp [extLenRev])
  | cons c rest ih =>
    rw [extLenRev] at h
    by_cases hc : c = '/'
    · rw [if_pos hc] at h
      exact absurd h (by simp)
    · rw [if_neg hc] at h
      by_cases hd : c = '.'
      · rw [if_pos hd] at h
        cases h
        simp
      · rw [if_neg hd] at h
        cases hm : extLenRev rest with
        | none => rw [hm] at h; exact absurd h (by simp)
        | some m =>
          rw [hm] at h
          simp only [Option.map_some'] at h
          cases h
          have := ih m hm
          constructor
          · omega
          · simp only [List.length_cons]
            omega

lemma trimSuffix_filepathExt (s : String) (n : Nat)
    (he : extLenRev s.data.reverse = some n) :
    filepathExt s ≠ "" ∧
    trimSuffix s (filepathExt s) = String.mk (s.data.take (s.data.length - n)) := by
  have hb := extLenRev_bounds _ _ he
  rw [List.length_reverse] at hb
  have hext : filepathExt s = String.mk (s.data.drop (s.data.length - n)) := by
    unfold filepathExt
    rw [he]
  constructor
  · rw [hext]
    intro hempty
    have hdata : (String.mk (s.data.drop (s.data.length - n))).data = ("" : String).data := by
      rw [hempty]
    simp only [String.data] at hdata
    have hlen : (s.data.drop (s.data.length - n)).length = 0 := by
      rw [hdata]
      rfl
    rw [List.length_drop] at hlen
    omega
  · rw [hext]
    unfold trimSuffix
    have hsuf : (s.data.drop (s.data.length - n)).isSuffixOf s.data := by
      rw [List.isSuffixOf_iff_suffix]
      exact List.drop_suffix _ _
    rw [if_pos hsuf]
    simp only [String.data, List.length_drop]
    have : s.data.length - (s.data.length - (s.data.length - n)) = s.data.length - n := by
      omega
    rw [this]

lemma changeExtensionToJPG_eq (s : String) :
    changeExtensionToJPG s =
      (match extLenRev s.data.reverse with
       | none => s ++ ".JPG"
       | some n => String.mk (s.data.take (s.data.length - n)) ++ ".JPG") := by
  cases he : extLenRev s.data.reverse with
  | none =>
    unfold changeExtensionToJPG
    have hext : filepathExt s = "" := by
      unfold filepathExt
      rw [he]
    rw [hext, if_pos rfl]
  | some n =>
    unfold changeExtensionToJPG
    obtain ⟨hne, htrim⟩ := trimSuffix_filepathExt s n he
    rw [if_neg hne, htrim]

lemma changeExtensionToWebP_eq (s : String) :
    changeExtensionToWebP s =
      (match extLenRev s.data.reverse with
       | none => s ++ ".WEBP"
       | some n => String.mk (s.data.take (s.data.length - n)) ++ ".WEBP") := by
  cases he : extLenRev s.data.reverse with
  | none =>
    unfold changeExtensionToWebP
    have hext : filepathExt s = "" := by
      unfold filepathExt
      rw [he]
    rw [hext, if_pos rfl]
  | some n =>
    unfold changeExtensionToWebP
    obtain ⟨hne, htrim⟩ := trimSuffix_filepathExt s n he
    rw [if_neg hne, htrim]

/-- Counterexample to claim C9 as stated: the source functions take the
extension from the final path element only (Go filepath.Ext stops at a
slash), so a filename whose last dot lies before a slash is not rewritten
at that dot: the code appends instead of replacing. -/
theorem claim_C9_counterexample :
    changeExtensionToJPG "a.b/c" = "a.b/c.JPG" ∧
    specLastDotChangeExtension "a.b/c" ".JPG" = "a.JPG" ∧
    ("a.b/c.JPG" : String) ≠ "a.JPG" := by
  decide

/-- Claim C9 amended: for every filename containing no path separator,
changeExtensionToJPG replaces everything after the last dot (appending
.JPG when there is no dot, mapping the empty string to .JPG), and
changeExtensionToWebP behaves identically with .WEBP; for filenames
containing a slash the dot is searched only within the final path
element.  A successful JPEG conversion of photo.png with normalization
enabled emits filename photo.JPG with MIME type image/jpeg. -/
theorem claim_C9_amended (s : String) (h : '/' ∉ s.data) :
    changeExtensionToJPG s = specLastDotChangeExtension s ".JPG" ∧
    changeExtensionToWebP s = specLastDotChangeExtension s ".WEBP" ∧
    changeExtensionToJPG "photo.png" = "photo.JPG" ∧
    changeExtensionToJPG "" = ".JPG" ∧
    changeExtensionToWebP "archive.tar.gz" = "archive.tar.WEBP" ∧
    (reformatMultipart codecShrink [] ⟨"photo.png", "image/png"⟩ [5, 5]
      ⟨1920, 1080, 0, 90, 85, "JPEG"⟩ 1 "assetData").Part.FileName = "photo.JPG" ∧
    (reformatMultipart codecShrink [] ⟨"photo.png", "image/png"⟩ [5, 5]
      ⟨1920, 1080, 0, 90, 85, "JPEG"⟩ 1 "assetData").Part.MimeType = JPEG_MIME_TYPE := by
  have hrev : '/' ∉ s.data.reverse := fun hm => h (List.mem_reverse.mp hm)
  refine ⟨?_, ?_, by decide, by decide, by decide, by decide, by decide⟩
  · rw [changeExtensionToJPG_eq]
    unfold specLastDotChangeExtension
    rw [extLenRev_eq_spec _ hrev]
  · rw [changeExtensionToWebP_eq]
    unfold specLastDotChangeExtension
    rw [extLenRev_eq_spec _ hrev]

/-- Witness for the amended claim C9 at the filename of the claim's
worked example. -/
theorem claim_C9_witness :
    changeExtensionToJPG "photo.png" = specLastDotChangeExtension "photo.png" ".JPG" ∧
    changeExtensionToWebP "photo.png" = specLastDotChangeExtension "photo.png" ".WEBP" :=
  ⟨(claim_C9_amended "photo.png" (by decide)).1,
   (claim_C9_amended "photo.png" (by decide)).2.1⟩

/-- Counterexample to claim C10 as stated: a repeated inbound form field
loses every value after the first (the Go loop writes r.Form.Get, the
first value, once per key), and on a processing error the file part
carries the original upload bytes rather than the ProcessedData of the
decision engine result (which holds the rotated working bytes there). -/
theorem claim_C10_counterexample :
    (reformatMultipart codecOpaqueFail [("k", ["a", "b"])] ⟨"f.bin", "application/x"⟩ [3]
      ⟨1920, 1080, 0, 90, 85, ""⟩ 1 "assetData").Fields = [("k", "a")] ∧
    ("k", "b") ∉ (reformatMultipart codecOpaqueFail [("k", ["a", "b"])] ⟨"f.bin", "application/x"⟩ [3]
      ⟨1920, 1080, 0, 90, 85, ""⟩ 1 "assetData").Fields ∧
    (processImageWithStrategy codecRotateThenFail [0] ⟨1920, 1080, 0, 90, 85, ""⟩).ProcessedData = [1, 2] ∧
    (reformatMultipart codecRotateThenFail [] ⟨"f.bin", ""⟩ [0]
      ⟨1920, 1080, 0, 90, 85, ""⟩ 1 "assetData").Part.Content = [0] ∧
    ([1, 2] : List Nat) ≠ [0] := by
  decide

/-- Claim C10 amended: every distinct non-file field name of the inbound
form is written exactly once into the outbound body, carrying its first
inbound value (later values of a repeated field are dropped); exactly one
file part is written under the configured upload field name, carrying the
decision engine's result bytes when processing succeeded and the original
upload bytes when it failed. -/
theorem claim_C10_amended (c : BimgCodec) (form : List (String × List String))
    (handler : FileHeader) (fileBytes : List Nat)
    (settings : ImageProcessingSettings) (normalizeExtensions : Int)
    (fileUploadField : String) :
    (reformatMultipart c form handler fileBytes settings normalizeExtensions
      fileUploadField).Fields = form.map (fun kv => (kv.1, formGet kv.2)) ∧
    (reformatMultipart c form handler fileBytes settings normalizeExtensions
      fileUploadField).Part.FieldName = fileUploadField ∧
    ((processImageWithStrategy c fileBytes settings).HasProcessingError = false →
      (reformatMultipart c form handler fileBytes settings normalizeExtensions
        fileUploadField).Part.Content = (processImageWithStrategy c fileBytes settings).ProcessedData) ∧
    ((processImageWithStrategy c fileBytes settings).HasProcessingError = true →
      (reformatMultipart c form handler fileBytes settings normalizeExtensions
        fileUploadField).Part.Content = fileBytes) := by
  unfold reformatMultipart
  generalize processImageWithStrategy c fileBytes settings = res
  obtain ⟨pd, wc, wr, nd, he⟩ := res
  cases he <;> simp

/-- Witness for the amended claim C10 at a concrete successful conversion
with one single-valued form field. -/
theorem claim_C10_witness :
    (reformatMultipart codecShrink [("deviceId", ["WEB"])] ⟨"photo.png", "image/png"⟩ [5, 5]
      ⟨1920, 1080, 0, 90, 85, "JPEG"⟩ 1 "assetData").Fields = [("deviceId", "WEB")] ∧
    (reformatMultipart codecShrink [("deviceId", ["WEB"])] ⟨"photo.png", "image/png"⟩ [5, 5]
      ⟨1920, 1080, 0, 90, 85, "JPEG"⟩ 1 "assetData").Part.Content = [9] := by
  have h := claim_C10_amended codecShrink [("deviceId", ["WEB"])] ⟨"photo.png", "image/png"⟩ [5, 5]
    ⟨1920, 1080, 0, 90, 85, "JPEG"⟩ 1 "assetData"
  refine ⟨h.1, ?_⟩
  rw [h.2.2.1 (by decide)]
  decide
